import Mathlib

/-!
Verification of the pybug mesh data model and transform protocol.

Shallow embedding of `pybug/spatialdata/mesh/__init__.py` (class `TriMesh`:
`attach_texture`, `add_trifield`, `trimesh_from_pointmask`) and
`pybug/transform/base.py` (`Transform.apply` double dispatch).

Numpy arrays are embedded as lists: a field array is a list of rows (the
leading dimension) together with the trailing item shape; points are integer
coordinate vectors (the algorithms only gather and compare them, so exact
numerics are irrelevant).  Python exceptions become `Except` results; a
mutation that happens before a raise (`attach_texture` sets `self.texture`
first) is captured by returning the mutated state alongside the error.
-/

/-- A triangle: three vertex indices into the point array (one row of the
numpy `trilist` of shape (T, 3)). -/
def Tri := Nat × Nat × Nat
deriving DecidableEq

/-- An n-dimensional numpy array, kept abstract beyond the leading dimension:
`rows` lists the subarrays along axis 0 (each flattened to an `Int` list) and
`itemShape` is the trailing shape.  The full shape is
`rows.length :: itemShape`. -/
structure NArr where
  rows : List (List Int)
  itemShape : List Nat
deriving DecidableEq

/-- numpy boolean-mask selection `l[mask]`: keep the entries whose mask bit
is true (masks of the matching length are the only ones numpy accepts). -/
def boolSelect {α : Type} (l : List α) (mask : List Bool) : List α :=
  (l.zip mask).filterMap fun p => if p.2 then some p.1 else none

/-- Insert a value into a sorted duplicate-free list, keeping it sorted and
duplicate-free (helper for `npUnique`). -/
def insUnique (x : Nat) : List Nat → List Nat
  | [] => [x]
  | y :: ys => if x < y then x :: y :: ys else if x = y then y :: ys else y :: insUnique x ys

/-- `np.unique`: the sorted list of distinct values occurring in `l`. -/
def npUnique (l : List Nat) : List Nat := l.foldr insUnique []

/-- The three vertex indices of a triangle row. -/
def triVerts (t : Tri) : List Nat := [t.1, t.2.1, t.2.2]

/-- `np.in1d(trilist, kept)` followed by `np.all(axis=1)` for one triangle:
true iff all three of its vertices are in the kept index list. -/
def allKept (kept : List Nat) (t : Tri) : Bool :=
  kept.contains t.1 && kept.contains t.2.1 && kept.contains t.2.2

/-- Python dict write `tbl[name] = field`: overwrite the entry when the name
is present, otherwise append it. -/
def insertField (tbl : List (String × NArr)) (name : String) (f : NArr) :
    List (String × NArr) :=
  if tbl.any fun p => p.1 = name then
    tbl.map fun p => if p.1 = name then (name, f) else p
  else tbl ++ [(name, f)]

/-- The errors the embedded operations can raise.  `trifieldError` carries the
supplied and the required leading dimension (the source interpolates both into
the `TriFieldError` message); `pointfieldError` likewise for point fields;
`textureError` is the unrecognized-tcoords-shape raise; `variantError` carries
the repr of the rejected `astype` argument. -/
inductive MeshErr where
  | trifieldError (supplied required : Nat)
  | pointfieldError (supplied required : Nat)
  | textureError
  | variantError (name : String)
deriving DecidableEq

/-- The mesh state: `points` and `trilist` from construction, the two field
tables, and the optional texture handle (handles are opaque, embedded as
`Nat`). -/
structure TriMesh where
  points : List (List Int)
  pointfields : List (String × NArr)
  trilist : List Tri
  trifields : List (String × NArr)
  texture : Option Nat
deriving DecidableEq

/-- `TriMesh.__init__`: store points and trilist, start with empty field
tables and no texture. -/
def TriMesh.init (points : List (List Int)) (trilist : List Tri) : TriMesh :=
  ⟨points, [], trilist, [], none⟩

/-- Modelled from the spec: `PointCloud3d` (imported by the mesh module from
`pybug.spatialdata.__init__`, which is not among the sources) stores the
ordered point list; N is its length (spec section 3: "ordered sequence of N
points"). -/
def TriMesh.n_points (m : TriMesh) : Nat := m.points.length

/-- `n_tris`: `len(self.trilist)`. -/
def TriMesh.n_tris (m : TriMesh) : Nat := m.trilist.length

/-- `add_trifield`: raise a `TriFieldError` reporting the supplied and the
required sizes when the field's leading dimension differs from `n_tris`,
otherwise store the field under the name. -/
def TriMesh.add_trifield (m : TriMesh) (name : String) (field : NArr) :
    Except MeshErr TriMesh :=
  if field.rows.length ≠ m.n_tris then
    .error (.trifieldError field.rows.length m.n_tris)
  else
    .ok { m with trifields := insertField m.trifields name field }

/-- Modelled from the spec: `add_pointfield` lives on `PointCloud3d`, which is
not among the sources.  Spec section 4.1: "inserts or overwrites the named
entry.  Fails with a FieldDimensionError when the array's leading dimension
does not equal N (point fields) ..., reporting both the supplied and required
sizes." -/
def TriMesh.add_pointfield (m : TriMesh) (name : String) (field : NArr) :
    Except MeshErr TriMesh :=
  if field.rows.length ≠ m.n_points then
    .error (.pointfieldError field.rows.length m.n_points)
  else
    .ok { m with pointfields := insertField m.pointfields name field }

/-- numpy fancy indexing `tcoords[tcoords_trilist]`: each index of the (K, 3)
index array is replaced by the indexed row of `tcoords`, so the result has
shape (K, 3, *tcoords.itemShape). -/
def gatherByTrilist (tc : NArr) (ttl : List Tri) : NArr :=
  ⟨ttl.map fun t => tc.rows.getD t.1 [] ++ tc.rows.getD t.2.1 [] ++ tc.rows.getD t.2.2 [],
   3 :: tc.itemShape⟩

/-- `attach_texture`: set `self.texture`, then classify the tcoords by the
presence of a texture-private trilist or by shape, storing them as a trifield
or pointfield named "tcoords"; raise `TextureError` when no form matches.
Returns the post-call state together with the raised error, if any (the
texture assignment precedes every raise, so it survives the error paths). -/
def TriMesh.attach_texture (m : TriMesh) (texture : Nat) (tcoords : NArr)
    (tcoords_trilist : Option (List Tri)) : TriMesh × Option MeshErr :=
  let m1 := { m with texture := some texture }
  match tcoords_trilist with
  | some ttl =>
    match m1.add_trifield "tcoords" (gatherByTrilist tcoords ttl) with
    | .ok m2 => (m2, none)
    | .error e => (m1, some e)
  | none =>
    if tcoords.rows.length = m1.n_points ∧ tcoords.itemShape = [2] then
      match m1.add_pointfield "tcoords" tcoords with
      | .ok m2 => (m2, none)
      | .error e => (m1, some e)
    else if tcoords.rows.length = m1.n_tris ∧ tcoords.itemShape = [3, 2] then
      match m1.add_trifield "tcoords" tcoords with
      | .ok m2 => (m2, none)
      | .error e => (m1, some e)
    else (m1, some .textureError)

/-- `np.arange(self.n_points)[pointmask]`: the original indices of the
mask-selected points. -/
def maskSelectedIdx (m : TriMesh) (mask : List Bool) : List Nat :=
  boolSelect (List.range m.n_points) mask

/-- `self.trilist[tris_mask]`: the triangles all three of whose vertices are
mask-selected. -/
def survivingTris (m : TriMesh) (mask : List Bool) : List Tri :=
  m.trilist.filter (allKept (maskSelectedIdx m mask))

/-- `np.unique(kept_tris_orig_index)`: the finally retained original point
indices, i.e. the sorted distinct vertices of the surviving triangles. -/
def finalKeptIdx (m : TriMesh) (mask : List Bool) : List Nat :=
  npUnique ((survivingTris m mask).map triVerts).flatten

/-- The scatter `pi_map = np.zeros(n_points); pi_map[kept] = arange(len kept)`
read back at `i`: for `i` in the (duplicate-free) kept list this is its
position there, elsewhere the zero fill. -/
def piMap (kept : List Nat) (i : Nat) : Nat :=
  if kept.contains i then kept.indexOf i else 0

/-- Point-field gather `field[kept_points_orig_index]`. -/
def fieldGather (f : NArr) (idx : List Nat) : NArr :=
  ⟨idx.map fun i => f.rows.getD i [], f.itemShape⟩

/-- The loop `for name, field in self.pointfields: newtrimesh.add_pointfield
(name, field[kept_points_orig_index])`, propagating a raise. -/
def transferPointfields (kept : List Nat) :
    TriMesh → List (String × NArr) → Except MeshErr TriMesh
  | tm, [] => .ok tm
  | tm, (n, f) :: rest =>
    match tm.add_pointfield n (fieldGather f kept) with
    | .error e => .error e
    | .ok tm2 => transferPointfields kept tm2 rest

/-- Triangle-field gather `field[tris_mask]`: boolean-mask the rows, keep the
trailing shape. -/
def triGather (trisMask : List Bool) (f : NArr) : NArr :=
  ⟨boolSelect f.rows trisMask, f.itemShape⟩

/-- The loop `for name, field in self.trifields: newtrimesh.add_trifield
(name, field[tris_mask])`, propagating a raise. -/
def transferTrifields (trisMask : List Bool) :
    TriMesh → List (String × NArr) → Except MeshErr TriMesh
  | tm, [] => .ok tm
  | tm, (n, f) :: rest =>
    match tm.add_trifield n (triGather trisMask f) with
    | .error e => .error e
    | .ok tm2 => transferTrifields trisMask tm2 rest

/-- A Python class object passed as `astype`: its repr and whether
`issubclass(astype, TriMesh)` holds.  The recognized classes all construct the
same mesh state (`FastTriMesh.__init__` forwards the same points and trilist
to `TriMesh.__init__`). -/
structure MeshClass where
  name : String
  isTriMeshSubclass : Bool

/-- The `astype` argument: the default string `'self'` or a class object. -/
inductive AsType where
  | argSelf
  | argClass (c : MeshClass)

/-- `trimeshcls(new_points, new_trilist)` followed by the two field-transfer
loops and the texture copy of `trimesh_from_pointmask`. -/
def buildAndTransfer (src : TriMesh) (newPoints : List (List Int))
    (newTrilist : List Tri) (trisMask : List Bool) (keptIdx : List Nat) :
    Except MeshErr TriMesh :=
  let newtrimesh := TriMesh.init newPoints newTrilist
  match transferPointfields keptIdx newtrimesh src.pointfields with
  | .error e => .error e
  | .ok tm =>
    match transferTrifields trisMask tm src.trifields with
    | .error e => .error e
    | .ok tm2 => .ok { tm2 with texture := src.texture }

/-- `trimesh_from_pointmask`: drop every triangle missing a mask-selected
vertex, recompute the kept points as the distinct vertices of the surviving
triangles, gather the new point array, remap the surviving triangles through
the compact renumbering, resolve `astype` (raising for a class that is not a
`TriMesh` subclass, before the new mesh is instantiated), then build the new
mesh and transfer all fields and the texture handle. -/
def TriMesh.trimesh_from_pointmask (m : TriMesh) (pointmask : List Bool)
    (astype : AsType) : Except MeshErr TriMesh :=
  let trisMask := m.trilist.map (allKept (maskSelectedIdx m pointmask))
  let keptTris := survivingTris m pointmask
  let keptIdx := finalKeptIdx m pointmask
  let newPoints := keptIdx.map fun i => m.points.getD i []
  let newTrilist := keptTris.map fun t =>
    (piMap keptIdx t.1, piMap keptIdx t.2.1, piMap keptIdx t.2.2)
  match astype with
  | .argSelf => buildAndTransfer m newPoints newTrilist trisMask keptIdx
  | .argClass c =>
    if c.isTriMeshSubclass then
      buildAndTransfer m newPoints newTrilist trisMask keptIdx
    else
      .error (.variantError c.name)

/-! ## Transform protocol (`pybug/transform/base.py`) -/

/-- A raw coordinate array, as handed to `_apply`. -/
def Arr := List (List Int)

/-- The keyword options forwarded from `apply` to `_apply`. -/
def Kwargs := List (String × Int)

/-- A transform: the one primitive `apply` dispatches through is the abstract
core mapping `_apply(x, **kwargs)`. -/
structure Transform where
  _apply : Arr → Kwargs → Arr

/-- The target of `Transform.apply`: either it exposes the `_transform`
capability (a method taking the closure and producing some value `V`), or it
is a raw coordinate array. -/
inductive ApplyTarget (V : Type) where
  | transformable (_transform : (Arr → Arr) → V)
  | rawArray (a : Arr)

/-- What the dispatch in `Transform.apply` does before the return: hand the
capable target the local closure `transform` (which applies `_apply` with the
call-time kwargs), or map a raw array through `_apply`. -/
inductive DispatchOutcome (V : Type) where
  | selfTransformed (v : V)
  | mappedArray (a : Arr)

/-- The body of `Transform.apply` up to the return: `x._transform(transform)`
for a capable target, `self._apply(x, **kwargs)` for a raw array. -/
def Transform.applyDispatch {V : Type} (t : Transform) (x : ApplyTarget V)
    (kwargs : Kwargs) : DispatchOutcome V :=
  match x with
  | .transformable f => .selfTransformed (f fun x_ => t._apply x_ kwargs)
  | .rawArray a => .mappedArray (t._apply a kwargs)

/-- `Transform.apply`: the capable branch has no return statement, so Python
returns `None` and the value produced by `x._transform` is dropped; the raw
branch returns the mapped array. -/
def Transform.apply {V : Type} (t : Transform) (x : ApplyTarget V)
    (kwargs : Kwargs) : Option Arr :=
  match t.applyDispatch x kwargs with
  | .selfTransformed _ => none
  | .mappedArray a => some a

/-! ## Helper lemmas -/

/-- Name lookup in a field table (the read side of the Python dict). -/
def lookupField : List (String × NArr) → String → Option NArr
  | [], _ => none
  | p :: tl, name => if p.1 = name then some p.2 else lookupField tl name

lemma lookupField_overwrite_self (tl : List (String × NArr)) (name : String)
    (f : NArr) (h : (tl.any fun q => q.1 = name) = true) :
    lookupField (tl.map fun p => if p.1 = name then (name, f) else p) name = some f := by
  induction tl with
  | nil => simp at h
  | cons p ps ih =>
    by_cases hp : p.1 = name
    · simp [lookupField, hp]
    · simp only [List.any_cons, hp, decide_False, Bool.false_or] at h
      simp [lookupField, hp, ih h]

lemma lookupField_overwrite_ne (tl : List (String × NArr)) (name other : String)
    (f : NArr) (h : other ≠ name) :
    lookupField (tl.map fun p => if p.1 = name then (name, f) else p) other =
      lookupField tl other := by
  induction tl with
  | nil => simp [lookupField]
  | cons p ps ih =>
    by_cases hp : p.1 = name
    · have hne : p.1 ≠ other := by rw [hp]; exact Ne.symm h
      simp [lookupField, hp, hne, Ne.symm h, ih]
    · simp only [List.map_cons, if_neg hp, lookupField]
      by_cases ho : p.1 = other
      · simp [ho]
      · simp [ho, ih]

lemma lookupField_append_self (tl : List (String × NArr)) (name : String)
    (f : NArr) (h : (tl.any fun q => q.1 = name) = false) :
    lookupField (tl ++ [(name, f)]) name = some f := by
  induction tl with
  | nil => simp [lookupField]
  | cons p ps ih =>
    simp only [List.any_cons, Bool.or_eq_false_iff, decide_eq_false_iff_not] at h
    simp [lookupField, h.1, ih h.2]

lemma lookupField_append_ne (tl : List (String × NArr)) (name other : String)
    (f : NArr) (h : other ≠ name) :
    lookupField (tl ++ [(name, f)]) other = lookupField tl other := by
  induction tl with
  | nil => simp [lookupField, Ne.symm h]
  | cons p ps ih =>
    by_cases ho : p.1 = other <;> simp [lookupField, ho, ih]

lemma lookupField_insertField_self (tbl : List (String × NArr)) (name : String)
    (f : NArr) : lookupField (insertField tbl name f) name = some f := by
  unfold insertField
  by_cases h : (tbl.any fun q => q.1 = name) = true
  · simp only [h, if_true]
    exact lookupField_overwrite_self tbl name f h
  · simp only [h, if_false]
    exact lookupField_append_self tbl name f (by rwa [Bool.not_eq_true] at h)

lemma lookupField_insertField_ne (tbl : List (String × NArr))
    (name other : String) (f : NArr) (h : other ≠ name) :
    lookupField (insertField tbl name f) other = lookupField tbl other := by
  unfold insertField
  by_cases ha : (tbl.any fun q => q.1 = name) = true
  · simp only [ha, if_true]
    exact lookupField_overwrite_ne tbl name other f h
  · simp only [ha, if_false]
    exact lookupField_append_ne tbl name other f h

lemma mem_insUnique {a x : Nat} {l : List Nat} :
    a ∈ insUnique x l ↔ a = x ∨ a ∈ l := by
  induction l with
  | nil => simp [insUnique]
  | cons y ys ih =>
    unfold insUnique
    by_cases h1 : x < y
    · simp [h1]
    · by_cases h2 : x = y
      · rw [if_neg h1, if_pos h2]
        subst h2
        simp only [List.mem_cons]
        tauto
      · simp [h1, h2, ih]
        tauto

lemma sorted_insUnique {x : Nat} {l : List Nat}
    (h : l.Sorted (· < ·)) : (insUnique x l).Sorted (· < ·) := by
  induction l with
  | nil => simp [insUnique]
  | cons y ys ih =>
    rw [List.sorted_cons] at h
    unfold insUnique
    by_cases h1 : x < y
    · rw [if_pos h1, List.sorted_cons]
      refine ⟨?_, List.sorted_cons.mpr h⟩
      intro b hb
      rcases List.mem_cons.mp hb with hb | hb
      · exact hb ▸ h1
      · exact h1.trans (h.1 b hb)
    · by_cases h2 : x = y
      · rw [if_neg h1, if_pos h2]
        exact List.sorted_cons.mpr h
      · rw [if_neg h1, if_neg h2, List.sorted_cons]
        refine ⟨?_, ih h.2⟩
        intro b hb
        rcases mem_insUnique.mp hb with hb | hb
        · subst hb
          omega
        · exact h.1 b hb

lemma mem_npUnique {a : Nat} {l : List Nat} : a ∈ npUnique l ↔ a ∈ l := by
  induction l with
  | nil => simp [npUnique]
  | cons x xs ih =>
    unfold npUnique at ih ⊢
    rw [List.foldr_cons, mem_insUnique, ih, List.mem_cons]

lemma sorted_npUnique (l : List Nat) : (npUnique l).Sorted (· < ·) := by
  induction l with
  | nil => simp [npUnique]
  | cons x xs ih => exact sorted_insUnique ih

lemma nodup_npUnique (l : List Nat) : (npUnique l).Nodup := by
  haveI : IsIrrefl Nat (· < ·) := ⟨Nat.lt_irrefl⟩
  exact (sorted_npUnique l).nodup

lemma npUnique_eq_range {l : List Nat} {n : Nat}
    (h1 : ∀ a ∈ l, a < n) (h2 : ∀ a, a < n → a ∈ l) :
    npUnique l = List.range n := by
  haveI : IsAntisymm Nat (· < ·) :=
    ⟨fun a b h h2 => absurd (Nat.lt_trans h h2) (Nat.lt_irrefl a)⟩
  refine List.eq_of_perm_of_sorted ?_ (sorted_npUnique l) (List.sorted_lt_range n)
  refine (List.perm_ext_iff_of_nodup (nodup_npUnique l) (List.nodup_range n)).mpr ?_
  intro a
  rw [mem_npUnique, List.mem_range]
  exact ⟨h1 a, h2 a⟩

lemma boolSelect_replicate_true {α : Type} (l : List α) :
    boolSelect l (List.replicate l.length true) = l := by
  induction l with
  | nil => rfl
  | cons x xs ih =>
    rw [List.length_cons, List.replicate_succ,
      show boolSelect (x :: xs) (true :: List.replicate xs.length true) =
        x :: boolSelect xs (List.replicate xs.length true) from rfl, ih]

lemma boolSelect_all_false {α : Type} {l : List α} {mask : List Bool}
    (h : ∀ b ∈ mask, b = false) : boolSelect l mask = [] := by
  induction l generalizing mask with
  | nil => simp [boolSelect]
  | cons x xs ih =>
    cases mask with
    | nil => rfl
    | cons b bs =>
      have hb := h b (List.mem_cons_self b bs)
      subst hb
      rw [show boolSelect (x :: xs) (false :: bs) = boolSelect xs bs from rfl]
      exact ih fun b hb => h b (List.mem_cons_of_mem _ hb)

lemma map_getD_range {α : Type} (l : List α) (d : α) :
    (List.range l.length).map (fun i => l.getD i d) = l := by
  induction l with
  | nil => rfl
  | cons x xs ih =>
    rw [List.length_cons, List.range_succ_eq_map, List.map_cons, List.map_map]
    exact congrArg (x :: ·) ih

lemma indexOf_range {i n : Nat} (h : i < n) : (List.range n).indexOf i = i := by
  induction n with
  | zero => omega
  | succ k ih =>
    rw [List.range_succ]
    by_cases hk : i < k
    · rw [List.indexOf_append_of_mem (List.mem_range.mpr hk)]
      exact ih hk
    · have hik : i = k := by omega
      subst hik
      rw [List.indexOf_append_of_not_mem (by simp), List.indexOf_cons_self]
      simp

lemma add_trifield_ok_parts {m m2 : TriMesh} {n : String} {f : NArr}
    (h : m.add_trifield n f = .ok m2) :
    m2.points = m.points ∧ m2.pointfields = m.pointfields ∧
    m2.trilist = m.trilist ∧ m2.texture = m.texture ∧
    m2.trifields = insertField m.trifields n f := by
  unfold TriMesh.add_trifield at h
  split at h
  · exact Except.noConfusion h
  · cases h; exact ⟨rfl, rfl, rfl, rfl, rfl⟩

lemma add_pointfield_ok_parts {m m2 : TriMesh} {n : String} {f : NArr}
    (h : m.add_pointfield n f = .ok m2) :
    m2.points = m.points ∧ m2.trifields = m.trifields ∧
    m2.trilist = m.trilist ∧ m2.texture = m.texture ∧
    m2.pointfields = insertField m.pointfields n f := by
  unfold TriMesh.add_pointfield at h
  split at h
  · exact Except.noConfusion h
  · cases h; exact ⟨rfl, rfl, rfl, rfl, rfl⟩

lemma mem_insertField {tbl : List (String × NArr)} {name : String} {f : NArr}
    {q : String × NArr} (h : q ∈ insertField tbl name f) :
    q ∈ tbl ∨ q = (name, f) := by
  unfold insertField at h
  split at h
  · obtain ⟨p, hp, hq⟩ := List.mem_map.mp h
    by_cases hc : p.1 = name
    · rw [if_pos hc] at hq; exact .inr hq.symm
    · rw [if_neg hc] at hq; exact .inl (hq ▸ hp)
  · rcases List.mem_append.mp h with h | h
    · exact .inl h
    · exact .inr (List.mem_singleton.mp h)

lemma mem_foldl_insertField (g : String × NArr → NArr) (P : NArr → Prop)
    (fs : List (String × NArr)) : ∀ acc : List (String × NArr),
    (∀ q ∈ acc, P q.2) → (∀ p ∈ fs, P (g p)) →
    ∀ q ∈ fs.foldl (fun a p => insertField a p.1 (g p)) acc, P q.2 := by
  induction fs with
  | nil => intro acc hacc _ q hq; exact hacc q hq
  | cons p rest ih =>
    intro acc hacc hfs q hq
    rw [List.foldl_cons] at hq
    refine ih (insertField acc p.1 (g p)) ?_
      (fun r hr => hfs r (List.mem_cons_of_mem _ hr)) q hq
    intro r hr
    rcases mem_insertField hr with hr | hr
    · exact hacc r hr
    · rw [hr]; exact hfs p (List.mem_cons_self p rest)

lemma foldl_insertField_fresh (g : String × NArr → NArr) :
    ∀ (fs acc : List (String × NArr)),
    (∀ p ∈ fs, g p = p.2) → (fs.map Prod.fst).Nodup →
    (∀ p ∈ fs, (acc.any fun q => q.1 = p.1) = false) →
    fs.foldl (fun a p => insertField a p.1 (g p)) acc = acc ++ fs := by
  intro fs
  induction fs with
  | nil => intro acc _ _ _; simp
  | cons p rest ih =>
    intro acc hg hk hf
    rw [List.foldl_cons]
    have hins : insertField acc p.1 (g p) = acc ++ [p] := by
      unfold insertField
      rw [if_neg (by rw [hf p (List.mem_cons_self p rest)]; simp),
        hg p (List.mem_cons_self p rest)]
    rw [hins, ih (acc ++ [p]) (fun q hq => hg q (List.mem_cons_of_mem _ hq))
      (by exact (List.nodup_cons.mp (by simpa using hk)).2) ?_]
    · simp
    · intro q hq
      rw [List.any_append]
      have h1 : (acc.any fun r => r.1 = q.1) = false :=
        hf q (List.mem_cons_of_mem _ hq)
      have h2 : ([p].any fun r => r.1 = q.1) = false := by
        have hple : p.1 ∉ rest.map Prod.fst :=
          (List.nodup_cons.mp (by simpa using hk)).1
        have : p.1 ≠ q.1 := fun hc => hple (hc ▸ List.mem_map_of_mem Prod.fst hq)
        simp [this]
      simp [h1, h2]

lemma transferPointfields_preserves {kept : List Nat} :
    ∀ {tm tm' : TriMesh} {fs : List (String × NArr)},
    transferPointfields kept tm fs = .ok tm' →
    tm'.points = tm.points ∧ tm'.trilist = tm.trilist ∧
    tm'.trifields = tm.trifields ∧ tm'.texture = tm.texture := by
  intro tm tm' fs
  induction fs generalizing tm with
  | nil => intro h; cases h; exact ⟨rfl, rfl, rfl, rfl⟩
  | cons p rest ih =>
    intro h
    unfold transferPointfields at h
    split at h
    · exact Except.noConfusion h
    next tm2 heq =>
      obtain ⟨h1, h2, h3, h4⟩ := ih h
      obtain ⟨g1, g2, g3, g4, _⟩ := add_pointfield_ok_parts heq
      exact ⟨h1.trans g1, h2.trans g3, h3.trans g2, h4.trans g4⟩

lemma transferTrifields_preserves {trisMask : List Bool} :
    ∀ {tm tm' : TriMesh} {fs : List (String × NArr)},
    transferTrifields trisMask tm fs = .ok tm' →
    tm'.points = tm.points ∧ tm'.trilist = tm.trilist ∧
    tm'.pointfields = tm.pointfields ∧ tm'.texture = tm.texture := by
  intro tm tm' fs
  induction fs generalizing tm with
  | nil => intro h; cases h; exact ⟨rfl, rfl, rfl, rfl⟩
  | cons p rest ih =>
    intro h
    unfold transferTrifields at h
    split at h
    · exact Except.noConfusion h
    next tm2 heq =>
      obtain ⟨h1, h2, h3, h4⟩ := ih h
      obtain ⟨g1, g2, g3, g4, _⟩ := add_trifield_ok_parts heq
      exact ⟨h1.trans g1, h2.trans g3, h3.trans g2, h4.trans g4⟩

lemma transferPointfields_ok (kept : List Nat) :
    ∀ (fs : List (String × NArr)) (tm : TriMesh),
    tm.n_points = kept.length →
    ∃ tm', transferPointfields kept tm fs = .ok tm' ∧
      tm'.points = tm.points ∧ tm'.trilist = tm.trilist ∧
      tm'.trifields = tm.trifields ∧ tm'.texture = tm.texture ∧
      tm'.pointfields =
        fs.foldl (fun a p => insertField a p.1 (fieldGather p.2 kept)) tm.pointfields := by
  intro fs
  induction fs with
  | nil => intro tm _; exact ⟨tm, rfl, rfl, rfl, rfl, rfl, rfl⟩
  | cons p rest ih =>
    intro tm hn
    have hlen : (fieldGather p.2 kept).rows.length = tm.n_points := by
      simp [fieldGather, hn]
    have hok : tm.add_pointfield p.1 (fieldGather p.2 kept) =
        .ok { tm with pointfields := insertField tm.pointfields p.1 (fieldGather p.2 kept) } := by
      unfold TriMesh.add_pointfield
      rw [if_neg (by rw [hlen]; simp)]
    obtain ⟨tm', h1, h2, h3, h4, h5, h6⟩ :=
      ih { tm with pointfields := insertField tm.pointfields p.1 (fieldGather p.2 kept) }
        (by simpa [TriMesh.n_points] using hn)
    refine ⟨tm', ?_, h2, h3, h4, h5, by simpa using h6⟩
    unfold transferPointfields
    rw [hok]
    exact h1

lemma transferTrifields_ok (trisMask : List Bool) :
    ∀ (fs : List (String × NArr)) (tm : TriMesh),
    (∀ p ∈ fs, (triGather trisMask p.2).rows.length = tm.n_tris) →
    ∃ tm', transferTrifields trisMask tm fs = .ok tm' ∧
      tm'.points = tm.points ∧ tm'.trilist = tm.trilist ∧
      tm'.pointfields = tm.pointfields ∧ tm'.texture = tm.texture ∧
      tm'.trifields =
        fs.foldl (fun a p => insertField a p.1 (triGather trisMask p.2)) tm.trifields := by
  intro fs
  induction fs with
  | nil => intro tm _; exact ⟨tm, rfl, rfl, rfl, rfl, rfl, rfl⟩
  | cons p rest ih =>
    intro tm hn
    have hok : tm.add_trifield p.1 (triGather trisMask p.2) =
        .ok { tm with trifields := insertField tm.trifields p.1 (triGather trisMask p.2) } := by
      unfold TriMesh.add_trifield
      rw [if_neg (by rw [hn p (List.mem_cons_self p rest)]; simp)]
    obtain ⟨tm', h1, h2, h3, h4, h5, h6⟩ :=
      ih { tm with trifields := insertField tm.trifields p.1 (triGather trisMask p.2) }
        (fun q hq => hn q (List.mem_cons_of_mem _ hq))
    refine ⟨tm', ?_, h2, h3, h4, h5, by simpa using h6⟩
    unfold transferTrifields
    rw [hok]
    exact h1

/-- The scenario-A mesh of the spec: four points, one triangle on the first
three (point 3 sits in no triangle). -/
def exMesh : TriMesh :=
  TriMesh.init [[0, 0, 0], [1, 0, 0], [0, 1, 0], [5, 5, 5]] [(0, 1, 2)]

/-! ## Claim theorems -/

/-- Claim C4: for every TriMesh with T triangles and every array whose leading
dimension differs from T, `add_trifield` fails with a field-dimension error
that reports both the supplied and the required sizes and stores nothing; when
the leading dimension equals T it inserts or overwrites the named entry
(leaving every other entry alone). -/
theorem add_trifield_spec (m : TriMesh) (name : String) (f : NArr) :
    (f.rows.length ≠ m.n_tris →
      m.add_trifield name f = .error (.trifieldError f.rows.length m.n_tris)) ∧
    (f.rows.length = m.n_tris →
      m.add_trifield name f =
        .ok { m with trifields := insertField m.trifields name f } ∧
      lookupField (insertField m.trifields name f) name = some f ∧
      ∀ other : String, other ≠ name →
        lookupField (insertField m.trifields name f) other =
          lookupField m.trifields other) := by
  constructor
  · intro h; simp [TriMesh.add_trifield, h]
  · intro h
    exact ⟨by simp [TriMesh.add_trifield, h],
      lookupField_insertField_self _ _ _,
      fun other ho => lookupField_insertField_ne _ _ _ _ ho⟩

theorem add_trifield_spec_witness :
    exMesh.add_trifield "color" ⟨[[1], [2]], [1]⟩ = .error (.trifieldError 2 1) ∧
    exMesh.add_trifield "color" ⟨[[1]], [1]⟩ =
      .ok { exMesh with trifields := insertField exMesh.trifields "color" ⟨[[1]], [1]⟩ } :=
  ⟨(add_trifield_spec exMesh "color" ⟨[[1], [2]], [1]⟩).1 (by decide),
   ((add_trifield_spec exMesh "color" ⟨[[1]], [1]⟩).2 (by decide)).1⟩

/-- Claim C5: when `attach_texture` is called without a texture-private
trilist and the tcoords shape matches neither (N, 2) nor (T, 3, 2), it fails
with the texture-shape error and neither field table gains a 'tcoords' entry
(the state component of the result keeps both tables of the receiver
unchanged; only the texture handle was set). -/
theorem attach_texture_bad_shape (m : TriMesh) (tex : Nat) (tc : NArr)
    (h1 : ¬(tc.rows.length = m.n_points ∧ tc.itemShape = [2]))
    (h2 : ¬(tc.rows.length = m.n_tris ∧ tc.itemShape = [3, 2])) :
    m.attach_texture tex tc none =
      ({ m with texture := some tex }, some .textureError) ∧
    ({ m with texture := some tex } : TriMesh).pointfields = m.pointfields ∧
    ({ m with texture := some tex } : TriMesh).trifields = m.trifields := by
  refine ⟨?_, rfl, rfl⟩
  have h1a : ¬(tc.rows.length = ({ m with texture := some tex } : TriMesh).n_points ∧
      tc.itemShape = [2]) := h1
  have h2a : ¬(tc.rows.length = ({ m with texture := some tex } : TriMesh).n_tris ∧
      tc.itemShape = [3, 2]) := h2
  simp only [TriMesh.attach_texture, if_neg h1a, if_neg h2a]

theorem attach_texture_bad_shape_witness :
    exMesh.attach_texture 7 ⟨[[0, 0]], [2]⟩ none =
      ({ exMesh with texture := some 7 }, some .textureError) :=
  (attach_texture_bad_shape exMesh 7 ⟨[[0, 0]], [2]⟩ (by decide) (by decide)).1

/-- Claim C6: every call to `attach_texture` stores the texture handle on the
mesh, whichever classification branch runs, including the branches that end in
an error. -/
theorem attach_texture_sets_texture (m : TriMesh) (tex : Nat) (tc : NArr)
    (ttl : Option (List Tri)) :
    (m.attach_texture tex tc ttl).1.texture = some tex := by
  unfold TriMesh.attach_texture
  cases ttl with
  | some l =>
    cases h : ({ m with texture := some tex } : TriMesh).add_trifield "tcoords"
        (gatherByTrilist tc l) with
    | ok m2 => simp only [h]; exact (add_trifield_ok_parts h).2.2.2.1
    | error e => simp only [h]
  | none =>
    by_cases h1 : tc.rows.length = ({ m with texture := some tex } : TriMesh).n_points ∧
        tc.itemShape = [2]
    · simp only [if_pos h1]
      cases h : ({ m with texture := some tex } : TriMesh).add_pointfield "tcoords" tc with
      | ok m2 => simp only [h]; exact (add_pointfield_ok_parts h).2.2.2.1
      | error e => simp only [h]
    · simp only [if_neg h1]
      by_cases h2 : tc.rows.length = ({ m with texture := some tex } : TriMesh).n_tris ∧
          tc.itemShape = [3, 2]
      · simp only [if_pos h2]
        cases h : ({ m with texture := some tex } : TriMesh).add_trifield "tcoords" tc with
        | ok m2 => simp only [h]; exact (add_trifield_ok_parts h).2.2.2.1
        | error e => simp only [h]
      · simp only [if_neg h2]

/-- Claim C7: `trimesh_from_pointmask` with an `astype` class that is not a
TriMesh subclass fails with the variant error carrying the rejected type's
repr, and no mesh is produced (the result is the bare error, surfaced before
any new mesh is instantiated). -/
theorem trimesh_from_pointmask_bad_astype (m : TriMesh) (mask : List Bool)
    (c : MeshClass) (h : c.isTriMeshSubclass = false) :
    m.trimesh_from_pointmask mask (.argClass c) = .error (.variantError c.name) := by
  simp [TriMesh.trimesh_from_pointmask, h]

theorem trimesh_from_pointmask_bad_astype_witness :
    exMesh.trimesh_from_pointmask [true, true, true, true]
      (.argClass ⟨"<type int>", false⟩) = .error (.variantError "<type int>") :=
  trimesh_from_pointmask_bad_astype exMesh [true, true, true, true]
    ⟨"<type int>", false⟩ rfl

/-- Claim C9: `Transform.apply` double dispatch.  A target exposing the
`_transform` capability is handed a closure mapping a raw coordinate array
through `_apply` with the call-time kwargs; a raw-array target is mapped
through `_apply` directly and the mapped array is returned. -/
theorem transform_apply_dispatch {V : Type} (t : Transform)
    (f : (Arr → Arr) → V) (kwargs : Kwargs) (a : Arr) :
    (∃ cl : Arr → Arr,
      t.applyDispatch (.transformable f) kwargs = .selfTransformed (f cl) ∧
      ∀ x_ : Arr, cl x_ = t._apply x_ kwargs) ∧
    t.apply (.rawArray a : ApplyTarget V) kwargs = some (t._apply a kwargs) :=
  ⟨⟨fun x_ => t._apply x_ kwargs, rfl, fun _ => rfl⟩, rfl⟩

/-- Claim C10: on a target exposing the `_transform` capability,
`Transform.apply` returns `None`: the value produced by the target's own
`_transform` is discarded, for every such target and transform. -/
theorem transform_apply_transformable_none {V : Type} (t : Transform)
    (f : (Arr → Arr) → V) (kwargs : Kwargs) :
    t.apply (.transformable f) kwargs = none := rfl

lemma trimesh_self_ok_parts {m m' : TriMesh} {mask : List Bool}
    (h : m.trimesh_from_pointmask mask .argSelf = .ok m') :
    m'.points = (finalKeptIdx m mask).map (fun i => m.points.getD i []) ∧
    m'.trilist = (survivingTris m mask).map (fun t =>
      (piMap (finalKeptIdx m mask) t.1, piMap (finalKeptIdx m mask) t.2.1,
       piMap (finalKeptIdx m mask) t.2.2)) := by
  simp only [TriMesh.trimesh_from_pointmask, buildAndTransfer] at h
  split at h
  · exact Except.noConfusion h
  next tm heq =>
    split at h
    · exact Except.noConfusion h
    next tm2 heq2 =>
      cases h
      obtain ⟨p1, p2, _, _⟩ := transferPointfields_preserves heq
      obtain ⟨q1, q2, _, _⟩ := transferTrifields_preserves heq2
      exact ⟨q1.trans p1, q2.trans p2⟩

/-- Claim C2: the point array of the extracted mesh is exactly the gather of
the finally-kept original indices, and an original index is finally kept iff
some triangle of the source survives the mask (all three vertices selected)
and uses it.  Mask-selected points orphaned by triangle loss are dropped. -/
theorem trimesh_point_set (m m' : TriMesh) (mask : List Bool)
    (hlen : mask.length = m.n_points)
    (h : m.trimesh_from_pointmask mask .argSelf = .ok m') :
    m'.points = (finalKeptIdx m mask).map (fun i => m.points.getD i []) ∧
    ∀ i : Nat, i ∈ finalKeptIdx m mask ↔
      ∃ t, t ∈ m.trilist ∧ allKept (maskSelectedIdx m mask) t = true ∧
        i ∈ triVerts t := by
  refine ⟨(trimesh_self_ok_parts h).1, fun i => ?_⟩
  unfold finalKeptIdx survivingTris
  rw [mem_npUnique, List.mem_flatten]
  constructor
  · rintro ⟨s, hs, hi⟩
    obtain ⟨t, ht, rfl⟩ := List.mem_map.mp hs
    have hf := List.mem_filter.mp ht
    exact ⟨t, hf.1, hf.2, hi⟩
  · rintro ⟨t, ht, hk, hi⟩
    exact ⟨triVerts t, List.mem_map_of_mem _ (List.mem_filter.mpr ⟨ht, hk⟩), hi⟩

theorem trimesh_point_set_witness :
    (TriMesh.init [[0, 0, 0], [1, 0, 0], [0, 1, 0]] [(0, 1, 2)]).points =
      (finalKeptIdx exMesh [true, true, true, false]).map
        (fun i => exMesh.points.getD i []) ∧
    ∀ i : Nat, i ∈ finalKeptIdx exMesh [true, true, true, false] ↔
      ∃ t, t ∈ exMesh.trilist ∧
        allKept (maskSelectedIdx exMesh [true, true, true, false]) t = true ∧
        i ∈ triVerts t :=
  trimesh_point_set exMesh (TriMesh.init [[0, 0, 0], [1, 0, 0], [0, 1, 0]] [(0, 1, 2)])
    [true, true, true, false] (by decide) (by rfl)

/-- Claim C3: every triangle of the extracted mesh indexes only within the
extracted point array: all three remapped vertex indices are below the number
of extracted points. -/
theorem trimesh_trilist_in_range (m m' : TriMesh) (mask : List Bool)
    (hlen : mask.length = m.n_points)
    (h : m.trimesh_from_pointmask mask .argSelf = .ok m') :
    ∀ t ∈ m'.trilist, t.1 < m'.points.length ∧ t.2.1 < m'.points.length ∧
      t.2.2 < m'.points.length := by
  obtain ⟨hp, ht⟩ := trimesh_self_ok_parts h
  intro t htm
  rw [ht] at htm
  obtain ⟨s, hs, rfl⟩ := List.mem_map.mp htm
  have hmem : ∀ v ∈ triVerts s, v ∈ finalKeptIdx m mask := by
    intro v hv
    unfold finalKeptIdx
    rw [mem_npUnique, List.mem_flatten]
    exact ⟨triVerts s, List.mem_map_of_mem _ hs, hv⟩
  have hpi : ∀ v ∈ triVerts s, piMap (finalKeptIdx m mask) v < m'.points.length := by
    intro v hv
    rw [hp, List.length_map]
    unfold piMap
    rw [if_pos (List.elem_iff.mpr (hmem v hv))]
    exact List.indexOf_lt_length.mpr (hmem v hv)
  exact ⟨hpi s.1 (by simp [triVerts]), hpi s.2.1 (by simp [triVerts]),
    hpi s.2.2 (by simp [triVerts])⟩

theorem trimesh_trilist_in_range_witness :
    ((0, 1, 2) : Tri).1 <
        (TriMesh.init [[0, 0, 0], [1, 0, 0], [0, 1, 0]] [(0, 1, 2)]).points.length ∧
      ((0, 1, 2) : Tri).2.1 <
        (TriMesh.init [[0, 0, 0], [1, 0, 0], [0, 1, 0]] [(0, 1, 2)]).points.length ∧
      ((0, 1, 2) : Tri).2.2 <
        (TriMesh.init [[0, 0, 0], [1, 0, 0], [0, 1, 0]] [(0, 1, 2)]).points.length :=
  trimesh_trilist_in_range exMesh
    (TriMesh.init [[0, 0, 0], [1, 0, 0], [0, 1, 0]] [(0, 1, 2)])
    [true, true, true, false] (by decide) (by rfl) (0, 1, 2) (by decide)

/-- Claim C8: a mask selecting zero points, or selecting points of which no
three form a common triangle, makes `trimesh_from_pointmask` return
successfully a mesh with zero points, zero triangles, and every transferred
field array empty. -/
theorem trimesh_empty_selection (m : TriMesh) (mask : List Bool)
    (hlen : mask.length = m.n_points)
    (hsel : maskSelectedIdx m mask = [] ∨
      ∀ t ∈ m.trilist, allKept (maskSelectedIdx m mask) t = false) :
    ∃ m', m.trimesh_from_pointmask mask .argSelf = .ok m' ∧
      m'.points = [] ∧ m'.trilist = [] ∧
      (∀ p ∈ m'.pointfields, p.2.rows = []) ∧
      (∀ p ∈ m'.trifields, p.2.rows = []) := by
  have hall : ∀ t ∈ m.trilist, allKept (maskSelectedIdx m mask) t = false := by
    rcases hsel with hsel | hsel
    · intro t ht
      rw [hsel]
      rfl
    · exact hsel
  have hsurv : survivingTris m mask = [] := by
    unfold survivingTris
    rw [List.filter_eq_nil_iff]
    intro t ht
    rw [hall t ht]
    simp
  have hkept : finalKeptIdx m mask = [] := by
    unfold finalKeptIdx
    rw [hsurv]
    rfl
  have htrismask : ∀ b ∈ m.trilist.map (allKept (maskSelectedIdx m mask)), b = false := by
    intro b hb
    obtain ⟨t, ht, rfl⟩ := List.mem_map.mp hb
    exact hall t ht
  simp only [TriMesh.trimesh_from_pointmask, buildAndTransfer, hsurv, hkept, List.map_nil]
  obtain ⟨tm, h1, h2, h3, h4, h5, h6⟩ :=
    transferPointfields_ok [] m.pointfields (TriMesh.init [] []) rfl
  rw [h1]
  simp only []
  obtain ⟨tm2, g1, g2, g3, g4, g5, g6⟩ :=
    transferTrifields_ok (m.trilist.map (allKept (maskSelectedIdx m mask)))
      m.trifields tm
      (by
        intro p _
        show (boolSelect p.2.rows _).length = tm.n_tris
        rw [boolSelect_all_false htrismask]
        show 0 = tm.trilist.length
        rw [h3]
        rfl)
  rw [g1]
  simp only []
  refine ⟨_, rfl, ?_, ?_, ?_, ?_⟩
  · show tm2.points = []
    rw [g2, h2]
    rfl
  · show tm2.trilist = []
    rw [g3, h3]
    rfl
  · show ∀ p ∈ tm2.pointfields, p.2.rows = []
    rw [g4, h6]
    refine mem_foldl_insertField _ (fun f => f.rows = []) m.pointfields
      (TriMesh.init [] []).pointfields (by intro q hq; cases hq) ?_
    intro p _
    rfl
  · show ∀ p ∈ tm2.trifields, p.2.rows = []
    rw [g6, h4]
    refine mem_foldl_insertField _ (fun f => f.rows = []) m.trifields
      (TriMesh.init [] []).trifields (by intro q hq; cases hq) ?_
    intro p _
    show (boolSelect p.2.rows _) = []
    exact boolSelect_all_false htrismask

theorem trimesh_empty_selection_witness :
    ∃ m', exMesh.trimesh_from_pointmask [true, true, false, false] .argSelf = .ok m' ∧
      m'.points = [] ∧ m'.trilist = [] ∧
      (∀ p ∈ m'.pointfields, p.2.rows = []) ∧
      (∀ p ∈ m'.trifields, p.2.rows = []) :=
  trimesh_empty_selection exMesh [true, true, false, false] (by decide)
    (.inr (by decide))

lemma piMap_range {i n : Nat} (h : i < n) : piMap (List.range n) i = i := by
  unfold piMap
  rw [if_pos (List.elem_iff.mpr (List.mem_range.mpr h)), indexOf_range h]

/-- Claim C1 counterexample: on the scenario-A mesh the all-true mask does not
return the source mesh: point 3 sits in no triangle, so the recomputation of
the kept points from the surviving triangles drops it and the extracted mesh
has three points where the source has four. -/
theorem trimesh_alltrue_counterexample :
    exMesh.trimesh_from_pointmask [true, true, true, true] .argSelf =
      .ok (TriMesh.init [[0, 0, 0], [1, 0, 0], [0, 1, 0]] [(0, 1, 2)]) ∧
    (TriMesh.init [[0, 0, 0], [1, 0, 0], [0, 1, 0]] [(0, 1, 2)]).points ≠
      exMesh.points :=
  ⟨rfl, by decide⟩

/-- Claim C1 (amended): for a mesh whose triangle indices are in range and in
which every point is a vertex of at least one triangle (and whose field tables
are well-formed: dimensions match, names unique), extracting with the
all-true mask returns a mesh equal to the source in points, triangle list, and
all point and triangle fields. -/
theorem trimesh_alltrue_mask (m : TriMesh)
    (hrange : ∀ t ∈ m.trilist,
      t.1 < m.n_points ∧ t.2.1 < m.n_points ∧ t.2.2 < m.n_points)
    (hcover : ∀ i ∈ List.range m.n_points, ∃ t, t ∈ m.trilist ∧ i ∈ triVerts t)
    (hpf : ∀ p ∈ m.pointfields, p.2.rows.length = m.n_points)
    (htf : ∀ p ∈ m.trifields, p.2.rows.length = m.n_tris)
    (hpk : (m.pointfields.map Prod.fst).Nodup)
    (htk : (m.trifields.map Prod.fst).Nodup) :
    ∃ m', m.trimesh_from_pointmask (List.replicate m.n_points true) .argSelf = .ok m' ∧
      m'.points = m.points ∧ m'.trilist = m.trilist ∧
      m'.pointfields = m.pointfields ∧ m'.trifields = m.trifields := by
  have hsel : maskSelectedIdx m (List.replicate m.n_points true) =
      List.range m.n_points := by
    have h := boolSelect_replicate_true (List.range m.n_points)
    rw [List.length_range] at h
    unfold maskSelectedIdx
    exact h
  have hallk : ∀ t ∈ m.trilist,
      allKept (maskSelectedIdx m (List.replicate m.n_points true)) t = true := by
    intro t ht
    obtain ⟨h1, h2, h3⟩ := hrange t ht
    rw [hsel]
    unfold allKept
    have c1 : (List.range m.n_points).contains t.1 = true :=
      List.elem_iff.mpr (List.mem_range.mpr h1)
    have c2 : (List.range m.n_points).contains t.2.1 = true :=
      List.elem_iff.mpr (List.mem_range.mpr h2)
    have c3 : (List.range m.n_points).contains t.2.2 = true :=
      List.elem_iff.mpr (List.mem_range.mpr h3)
    rw [c1, c2, c3]
    rfl
  have hsurv : survivingTris m (List.replicate m.n_points true) = m.trilist := by
    unfold survivingTris
    exact List.filter_eq_self.mpr hallk
  have hkept : finalKeptIdx m (List.replicate m.n_points true) =
      List.range m.n_points := by
    unfold finalKeptIdx
    rw [hsurv]
    refine npUnique_eq_range ?_ ?_
    · intro a ha
      rw [List.mem_flatten] at ha
      obtain ⟨s, hs, hais⟩ := ha
      obtain ⟨t, ht, rfl⟩ := List.mem_map.mp hs
      obtain ⟨h1, h2, h3⟩ := hrange t ht
      rcases (by simpa [triVerts] using hais : a = t.1 ∨ a = t.2.1 ∨ a = t.2.2) with
        rfl | rfl | rfl
      · exact h1
      · exact h2
      · exact h3
    · intro a ha
      obtain ⟨t, ht, hin⟩ := hcover a (List.mem_range.mpr ha)
      rw [List.mem_flatten]
      exact ⟨triVerts t, List.mem_map_of_mem _ ht, hin⟩
  have hpoints : (List.range m.n_points).map (fun i => m.points.getD i []) =
      m.points := map_getD_range m.points []
  have htrilist : m.trilist.map (fun t => (piMap (List.range m.n_points) t.1,
      piMap (List.range m.n_points) t.2.1, piMap (List.range m.n_points) t.2.2)) =
      m.trilist := by
    have hid : ∀ t ∈ m.trilist, (piMap (List.range m.n_points) t.1,
        piMap (List.range m.n_points) t.2.1, piMap (List.range m.n_points) t.2.2) = t := by
      intro t ht
      obtain ⟨h1, h2, h3⟩ := hrange t ht
      rw [piMap_range h1, piMap_range h2, piMap_range h3]
      rfl
    rw [List.map_congr_left hid]
    exact List.map_id _
  have htrismask : m.trilist.map
      (allKept (maskSelectedIdx m (List.replicate m.n_points true))) =
      List.replicate m.n_tris true := by
    have h := List.eq_replicate_of_mem (l := m.trilist.map
      (allKept (maskSelectedIdx m (List.replicate m.n_points true)))) (a := true)
      (by
        intro b hb
        obtain ⟨t, ht, rfl⟩ := List.mem_map.mp hb
        exact hallk t ht)
    rwa [List.length_map] at h
  simp only [TriMesh.trimesh_from_pointmask, buildAndTransfer, hkept, hpoints,
    hsurv, htrilist, htrismask]
  obtain ⟨tm, k1, k2, k3, k4, k5, k6⟩ :=
    transferPointfields_ok (List.range m.n_points) m.pointfields
      (TriMesh.init m.points m.trilist)
      (by show m.points.length = _; rw [List.length_range]; rfl)
  rw [k1]
  simp only []
  obtain ⟨tm2, l1, l2, l3, l4, l5, l6⟩ :=
    transferTrifields_ok (List.replicate m.n_tris true) m.trifields tm
      (by
        intro p hp
        show (boolSelect p.2.rows (List.replicate m.n_tris true)).length = tm.n_tris
        have hr := htf p hp
        have hb : boolSelect p.2.rows (List.replicate m.n_tris true) = p.2.rows := by
          conv_lhs => rw [← hr]
          exact boolSelect_replicate_true p.2.rows
        rw [hb, hr, show tm.n_tris = tm.trilist.length from rfl, k3]
        rfl)
  rw [l1]
  simp only []
  refine ⟨_, rfl, ?_, ?_, ?_, ?_⟩
  · show tm2.points = m.points
    rw [l2, k2]
    rfl
  · show tm2.trilist = m.trilist
    rw [l3, k3]
    rfl
  · show tm2.pointfields = m.pointfields
    rw [l4, k6]
    have hg : ∀ p ∈ m.pointfields,
        fieldGather p.2 (List.range m.n_points) = p.2 := by
      intro p hp
      have hr := hpf p hp
      unfold fieldGather
      conv_lhs => rw [← hr]
      rw [map_getD_range]
    rw [foldl_insertField_fresh _ m.pointfields
      (TriMesh.init m.points m.trilist).pointfields hg hpk (fun p _ => rfl)]
    rfl
  · show tm2.trifields = m.trifields
    rw [l6, k4]
    have hg : ∀ p ∈ m.trifields,
        triGather (List.replicate m.n_tris true) p.2 = p.2 := by
      intro p hp
      have hr := htf p hp
      unfold triGather
      conv_lhs => rw [← hr]
      rw [boolSelect_replicate_true]
    rw [foldl_insertField_fresh _ m.trifields
      (TriMesh.init m.points m.trilist).trifields hg htk (fun p _ => rfl)]
    rfl

/-- A well-formed mesh for the all-true-mask round trip: every point is in the
triangle, one point field and one triangle field attached, a texture set. -/
def exMesh3 : TriMesh :=
  ⟨[[0, 0, 0], [1, 0, 0], [0, 1, 0]], [("color", ⟨[[1], [2], [3]], [1]⟩)],
   [(0, 1, 2)], [("area", ⟨[[9]], [1]⟩)], some 5⟩

theorem trimesh_alltrue_mask_witness :
    ∃ m', exMesh3.trimesh_from_pointmask (List.replicate exMesh3.n_points true)
        .argSelf = .ok m' ∧
      m'.points = exMesh3.points ∧ m'.trilist = exMesh3.trilist ∧
      m'.pointfields = exMesh3.pointfields ∧ m'.trifields = exMesh3.trifields :=
  trimesh_alltrue_mask exMesh3 (by decide) (by decide) (by decide) (by decide)
    (by decide) (by decide)
